import Mathlib

/-!
Shallow embedding of the alpha-hub quiz session state machine and scoring
engine, translated from the frontend source:

* `src/frontend/src/utils/scoring.js` — read-time breakdown derivation
  (`deriveCountsFromResults`, `countTimedOut`, `getAttemptedCount`,
  `getPoints`, `getDisplayBreakdown`);
* `src/pages/Quiz.jsx` (the revision with per-question timers) —
  submission-time aggregation and result-record building (`handleSubmit`),
  the live attempt coordinator (`runLive`), and skip accounting
  (`skipQuestion`);
* `src/frontend/src/pages/History.jsx` (the revision with the repair pass)
  — retroactive re-grading (`shouldRecheck`, `repairAttempt`).

JavaScript numbers are modelled as `Int` (timestamps in milliseconds,
seconds, counts) or `Rat` where fractional division matters; absent or
`null` JS fields are modelled as `Option` or, for strings where the code
only ever tests truthiness, as the empty string.
-/

namespace AlphaHub

/-- JS `String.prototype.trim`: strip leading and trailing whitespace.
Implemented on the character list (rather than through `String.trim`'s
substring machinery) so that it evaluates by kernel reduction. -/
def jsTrim (s : String) : String :=
  ⟨((s.data.dropWhile Char.isWhitespace).reverse.dropWhile Char.isWhitespace).reverse⟩

/-- The four mutually exclusive read-time buckets of the breakdown. -/
inductive Bucket
  | correct
  | wrong
  | skipped
  | timedOut
deriving Repr, DecidableEq

/-- Aggregate counters accumulated by `deriveCountsFromResults`. -/
structure Counts where
  correct : Nat
  wrong : Nat
  skipped : Nat
  timedOut : Nat
deriving Repr, DecidableEq

/-- One per-question result entry as stored inside a result record's
`results` array (built by `handleSubmit` in Quiz.jsx).  String fields use
`""` for an absent / null JS value; `wasAnswered` is `none` when the stored
field is not a boolean, `selectedOptionIds` is `none` when the stored field
is not an array. -/
structure ResultEntry where
  type : String
  apiId : String
  attempt : String
  liveStatusStatus : String
  isCorrect : Bool
  wasAnswered : Option Bool
  selectedOptionIds : Option (List String)
deriving Repr, DecidableEq

/-- JS `q?.type || "mcq"`. -/
def entryType (q : ResultEntry) : String :=
  if q.type = "" then "mcq" else q.type

/-- JS `q?.liveStatus?.status || "idle"`. -/
def liveStatusOf (q : ResultEntry) : String :=
  if q.liveStatusStatus = "" then "idle" else q.liveStatusStatus

/-- JS `(q?.attempt || "").trim().length > 0`. -/
def hasAttempt (q : ResultEntry) : Bool :=
  (jsTrim q.attempt) ≠ ""

/-- The MCQ `wasAnswered` resolution in `deriveCountsFromResults`:
stored boolean if present, else `selectedOptionIds.length > 0` if that
field is an array, else `false`. -/
def mcqWasAnswered (q : ResultEntry) : Bool :=
  match q.wasAnswered with
  | some b => b
  | none =>
    match q.selectedOptionIds with
    | some l => l.length > 0
    | none => false

/-- The bucket assigned to a single entry by the loop body of
`deriveCountsFromResults` (scoring.js lines 19–55). -/
def entryBucket (q : ResultEntry) : Bucket :=
  if entryType q = "live" then
    if liveStatusOf q = "timeout" then Bucket.timedOut
    else if ¬ hasAttempt q then Bucket.skipped
    else if q.isCorrect then Bucket.correct
    else Bucket.wrong
  else
    if ¬ mcqWasAnswered q then Bucket.skipped
    else if q.isCorrect then Bucket.correct
    else Bucket.wrong

def addBucket (c : Counts) : Bucket → Counts
  | Bucket.correct => { c with correct := c.correct + 1 }
  | Bucket.wrong => { c with wrong := c.wrong + 1 }
  | Bucket.skipped => { c with skipped := c.skipped + 1 }
  | Bucket.timedOut => { c with timedOut := c.timedOut + 1 }

/-- scoring.js `deriveCountsFromResults`: classify every entry into exactly
one bucket and accumulate the four counters. -/
def deriveCountsFromResults (rs : List ResultEntry) : Counts :=
  rs.foldl (fun c q => addBucket c (entryBucket q)) ⟨0, 0, 0, 0⟩

/-- scoring.js `countTimedOut`: entries with literal type `"live"` and
literal live status `"timeout"`. -/
def countTimedOut (rs : List ResultEntry) : Nat :=
  rs.countP (fun q => decide (q.type = "live" ∧ q.liveStatusStatus = "timeout"))

/-- Sum of the four counters of a `Counts`. -/
def countsTotal (c : Counts) : Nat :=
  c.correct + c.wrong + c.skipped + c.timedOut

/-- A stored quiz result record (`resultLike` in scoring.js): the stored
aggregate fields plus the per-question `results` array.  `none` models an
absent / non-numeric stored field. -/
structure ResultRecord where
  totalQuestions : Option Int
  results : List ResultEntry
  score : Option Int
  correctCount : Option Int
  wrongCount : Option Int
  skippedCount : Option Int
deriving Repr, DecidableEq

/-- JS `Number(resultLike?.totalQuestions ?? resultLike?.results?.length ?? 0)`. -/
def recordTotal (r : ResultRecord) : Int :=
  match r.totalQuestions with
  | some n => n
  | none => (r.results.length : Int)

/-- The `{correct, wrong, skipped}` point values of `QUIZ_CONFIG.scoring`
(config.js). -/
structure ScoringPolicy where
  correct : Int
  wrong : Int
  skipped : Int
deriving Repr, DecidableEq

/-- config.js `QUIZ_CONFIG.scoring = { correct: 1, wrong: -1, skipped: 0 }`. -/
def quizConfigScoring : ScoringPolicy := ⟨1, -1, 0⟩

/-- JS `Number(scoring.correct ?? 1) || 1` (the `|| 1` turns a zero back
into the default). -/
def ptsCorrect (cfg : ScoringPolicy) : Int :=
  if cfg.correct = 0 then 1 else cfg.correct

/-- JS `Number(scoring.wrong ?? -1) || -1`. -/
def ptsWrong (cfg : ScoringPolicy) : Int :=
  if cfg.wrong = 0 then -1 else cfg.wrong

/-- JS `Number(scoring.skipped ?? 0) || 0` (identity on integers). -/
def ptsSkipped (cfg : ScoringPolicy) : Int :=
  cfg.skipped

/-- scoring.js `getPoints`: prefer the stored `score` field when it is a
finite number; otherwise recompute from the stored aggregate counters
(never from the per-question entries). -/
def getPoints (r : ResultRecord) (cfg : ScoringPolicy) : Int :=
  match r.score with
  | some s => s
  | none =>
    (r.correctCount.getD 0) * ptsCorrect cfg
      + (r.wrongCount.getD 0) * ptsWrong cfg
      + (r.skippedCount.getD 0) * ptsSkipped cfg

/-- scoring.js `getAttemptedCount`: `max(0, total - skipped)`, preferring
the stored `skippedCount` and falling back to the derived skipped count. -/
def getAttemptedCount (r : ResultRecord) : Int :=
  match r.skippedCount with
  | some sk => max 0 (recordTotal r - sk)
  | none =>
    max 0 (recordTotal r - ((deriveCountsFromResults r.results).skipped : Int))

/-- The record shown by `getDisplayBreakdown`. -/
structure Breakdown where
  total : Int
  attempted : Int
  correct : Int
  wrong : Int
  skipped : Int
  timedOut : Int
deriving Repr, DecidableEq

/-- scoring.js `getDisplayBreakdown`: when the per-question `results` array
is non-empty, recompute the four counters from it; otherwise use the stored
aggregate fields (and `countTimedOut` of the missing array, which is 0).
`attempted` is always `max(0, total - skipped)`. -/
def getDisplayBreakdown (r : ResultRecord) : Breakdown :=
  let total := recordTotal r
  if r.results.isEmpty then
    let skipped := r.skippedCount.getD 0
    { total := total
      attempted := max 0 (total - skipped)
      correct := r.correctCount.getD 0
      wrong := r.wrongCount.getD 0
      skipped := skipped
      timedOut := (countTimedOut r.results : Int) }
  else
    let d := deriveCountsFromResults r.results
    { total := total
      attempted := max 0 (total - (d.skipped : Int))
      correct := (d.correct : Int)
      wrong := (d.wrong : Int)
      skipped := (d.skipped : Int)
      timedOut := (d.timedOut : Int) }

/-- History.jsx (repair revision) `calcPointsFromBreakdown`: points
recomputed from a (derived) breakdown rather than from stored fields. -/
def calcPointsFromBreakdown (b : Breakdown) (cfg : ScoringPolicy) : Int :=
  b.correct * ptsCorrect cfg + b.wrong * ptsWrong cfg + b.skipped * ptsSkipped cfg

/-! ### Result record builder (`handleSubmit` in Quiz.jsx) -/

/-- Quiz.jsx `handleSubmit`, MCQ branch: the `wasAnswered` flag is the
stored `answeredById` override when defined, otherwise whether at least one
option is selected. -/
def mcqWasAnsweredAtSubmit (answeredOverride : Option Bool) (picked : List String) : Bool :=
  match answeredOverride with
  | some b => b
  | none => picked.length > 0

/-- Quiz.jsx `handleSubmit`, MCQ branch:
`picked.length === correctIds.length && correctIds.every((id) => pickedSet.has(id))`. -/
def exactMatch (picked correctIds : List String) : Bool :=
  decide (picked.length = correctIds.length) && decide (∀ oid ∈ correctIds, oid ∈ picked)

/-- The MCQ result entry built by `handleSubmit`: classified skipped (flag
false) when `wasAnswered` is false, else correct exactly on an exact
selected-set match. -/
def mkMcqResultEntry (answeredOverride : Option Bool) (picked correctIds : List String) :
    ResultEntry :=
  let wasAnswered := mcqWasAnsweredAtSubmit answeredOverride picked
  { type := "mcq"
    apiId := ""
    attempt := ""
    liveStatusStatus := ""
    isCorrect := wasAnswered && exactMatch picked correctIds
    wasAnswered := some wasAnswered
    selectedOptionIds := some picked }

/-- The live result entry built by `handleSubmit`: `statusIn` is
`liveStatusById[q.id]` (`none` defaults to `idle`), and the stored
correctness flag is set exactly when the attempt text is non-empty after
trimming and the terminal status is `correct`. -/
def mkLiveResultEntry (statusIn : Option String) (attempt : String) (apiId : String) :
    ResultEntry :=
  let st := statusIn.getD "idle"
  { type := "live"
    apiId := apiId
    attempt := attempt
    liveStatusStatus := st
    isCorrect := decide ((jsTrim attempt) ≠ "") && decide (st = "correct")
    wasAnswered := none
    selectedOptionIds := none }

/-- The submission-time aggregate bucket for a live question (`handleSubmit`
live branch): `skippedCount` if the attempt is empty, `correctCount` if the
terminal status is `correct`, otherwise `wrongCount` — there is no
timed-out counter at submission time. -/
def submitLiveBucket (statusIn : Option String) (attempt : String) : Bucket :=
  let st := statusIn.getD "idle"
  if (jsTrim attempt) = "" then Bucket.skipped
  else if st = "correct" then Bucket.correct
  else Bucket.wrong

/-! ### Session questions and timing (Quiz.jsx) -/

/-- A question as normalized into a session.  `seconds` and `tries` model
the optional source-provided live time budget and retry limit. -/
structure QuizQuestion where
  id : String
  type : String
  seconds : Option Int
  tries : Option Int
deriving Repr, DecidableEq

/-- JS `q.type || "mcq"`. -/
def qType (q : QuizQuestion) : String :=
  if q.type = "" then "mcq" else q.type

/-- config.js `QUIZ_CONFIG.timePerQuestionSecondsByType` lookup with the
`?? 15` fallback of `getQuestionSeconds`. -/
def perTypeSecondsDefault (t : String) : Int :=
  if t = "mcq" then 15 else if t = "live" then 20 else 15

/-- Quiz.jsx `getQuestionSeconds`: a live question uses its own positive
`seconds` when provided, otherwise the per-kind default. -/
def getQuestionSeconds (q : QuizQuestion) : Int :=
  let t := qType q
  if t = "live" then
    match q.seconds with
    | some s => if s > 0 then s else perTypeSecondsDefault t
    | none => perTypeSecondsDefault t
  else perTypeSecondsDefault t

/-- Quiz.jsx `handleSubmit`: sum of every question's allotment. -/
def totalTimeAllowedInSeconds (qs : List QuizQuestion) : Int :=
  (qs.map getQuestionSeconds).sum

/-- JS `Math.round` on an exact rational: `⌊x + 1/2⌋`. -/
def jsRound (x : Rat) : Int :=
  ⌊x + 1 / 2⌋

/-- Quiz.jsx `handleSubmit`: `finishedAt` is `startedAt + totalAllowed`
seconds on a timeout submission, and wall-clock `now` otherwise
(timestamps in milliseconds). -/
def submitFinishedAtMs (reason : String) (startedAtMs nowMs : Int) (qs : List QuizQuestion) :
    Int :=
  if reason = "timeout" then startedAtMs + totalTimeAllowedInSeconds qs * 1000 else nowMs

/-- Quiz.jsx `handleSubmit`: `durationSeconds` is the rounded elapsed time,
clamped by `Math.min` to the total allotment. -/
def submitDurationSeconds (reason : String) (startedAtMs nowMs : Int)
    (qs : List QuizQuestion) : Int :=
  min (jsRound (((submitFinishedAtMs reason startedAtMs nowMs qs - startedAtMs : Int) : Rat) / 1000))
    (totalTimeAllowedInSeconds qs)

/-! ### Skip accounting (Quiz.jsx `skipQuestion`) -/

/-- Upsert into the `answeredById` map (modelled as an association list). -/
def setAnswered (m : List (String × Bool)) (k : String) (v : Bool) : List (String × Bool) :=
  (k, v) :: m.filter (fun p => p.1 ≠ k)

/-- The mutable in-session state touched by `skipQuestion`. -/
structure SessionState where
  questions : List QuizQuestion
  currentIndex : Nat
  globalTimeLeft : Option Int
  enteredAtMs : Int
  isLiveOnly : Bool
  answeredById : List (String × Bool)
deriving Repr, DecidableEq

/-- Quiz.jsx `skipQuestion` remainder:
`Math.max(0, Math.ceil(qSec - elapsed))` with `elapsed = (now - enteredAt) / 1000`. -/
def skipRemainder (qSec : Int) (elapsedMs : Int) : Int :=
  max 0 ⌈(qSec : Rat) - (elapsedMs : Rat) / 1000⌉

/-- Quiz.jsx `skipQuestion` (revision with per-question timers): no-op on
the last question; marks an MCQ unanswered; unless the session is
live-only, debits the session clock by the unused remainder of the current
question's allotment, flooring the clock at zero; then advances the
cursor. -/
def skipQuestion (s : SessionState) (nowMs : Int) : SessionState :=
  if s.questions.length ≤ s.currentIndex + 1 then s
  else
    match s.questions[s.currentIndex]? with
    | none => s
    | some q =>
      let answered :=
        if q.type = "mcq" then setAnswered s.answeredById q.id false else s.answeredById
      let clock :=
        if s.isLiveOnly then s.globalTimeLeft
        else
          let rem := skipRemainder (getQuestionSeconds q) (nowMs - s.enteredAtMs)
          some (max 0 (s.globalTimeLeft.getD 0 - rem))
      { s with
          answeredById := answered
          globalTimeLeft := clock
          currentIndex := s.currentIndex + 1 }

/-! ### Live attempt coordinator (Quiz.jsx `runLive`) -/

/-- The per-question live state touched by `runLive`: the status string
(`""` for an absent map entry, coalesced to `idle`) and the attempts-used
counter. -/
structure LiveQState where
  status : String
  used : Nat
deriving Repr, DecidableEq

/-- Outcome of the external checker call.  `fail` covers everything that
makes the `try` block throw: network failure, a non-2xx response, or an
unparsable body — all reached before the attempts-used increment.  `ok r`
is a 2xx response whose parsed body has `result = r`. -/
inductive CheckOutcome
  | fail
  | ok (result : Option String)
deriving Repr, DecidableEq

/-- JS `liveStatusById[qid]?.status || "idle"`. -/
def statusOr (s : String) : String :=
  if s = "" then "idle" else s

/-- Quiz.jsx `runLive` (revision with per-question timers), as a transition
on the per-question state given the checker outcome: terminal statuses are
inert; exhausted attempts, empty attempt text and a missing `apiId` only
surface an `error` status; a failed call sets `error` without touching the
attempts-used counter; a completed call consumes one attempt and sets
`correct` exactly on the `"Success"` verdict. -/
def runLive (limit : Nat) (apiId attempt : String) (st : LiveQState)
    (outcome : CheckOutcome) : LiveQState :=
  let cur := statusOr st.status
  if cur = "correct" ∨ cur = "timeout" then st
  else if limit ≤ st.used then { st with status := "error" }
  else if (jsTrim attempt) = "" then { st with status := "error" }
  else if apiId = "" then { st with status := "error" }
  else
    match outcome with
    | CheckOutcome.fail => { st with status := "error" }
    | CheckOutcome.ok r =>
      if r = some "Success" then { status := "correct", used := st.used + 1 }
      else { status := "incorrect", used := st.used + 1 }

/-! ### Retroactive re-grading (History.jsx repair pass) -/

/-- History.jsx `shouldRecheck`: only a live entry with an `apiId`, a
non-terminal live status, non-empty attempt text and a false correctness
flag is re-dispatched. -/
def shouldRecheck (q : ResultEntry) : Bool :=
  if q.type ≠ "live" then false
  else if q.apiId = "" then false
  else if liveStatusOf q = "timeout" ∨ liveStatusOf q = "correct" then false
  else if (jsTrim q.attempt) = "" then false
  else ¬ q.isCorrect

/-- One iteration of the `repairAttempt` loop: entries failing
`shouldRecheck` are untouched; a re-dispatched entry is upgraded to
`isCorrect = true` with live status `correct` exactly when the checker now
answers `Success` (`check` abstracts `recheckLiveAttempt`, which posts the
trimmed attempt text). -/
def repairOne (check : String → String → Bool) (q : ResultEntry) : ResultEntry :=
  if shouldRecheck q then
    if check q.apiId (jsTrim q.attempt) then
      { q with isCorrect := true, liveStatusStatus := "correct" }
    else q
  else q

/-- History.jsx `repairAttempt` applied to a record's `results` array. -/
def repairResults (check : String → String → Bool) (rs : List ResultEntry) :
    List ResultEntry :=
  rs.map (repairOne check)

/-- Number of requests the repair pass dispatches to the external checker:
`recheckLiveAttempt` is awaited exactly for the entries passing
`shouldRecheck`. -/
def repairDispatchCount (rs : List ResultEntry) : Nat :=
  rs.countP (fun q => shouldRecheck q)

/-! ### The spec's counting rule (for the refinement claim C1) -/

/-- Modelled from the spec: the counting rules of §4.6 stated verbatim —
LiveCheck: `timedOut` if the terminal status is `timeout`; else `skipped`
if the attempt text is empty; else `correct` if the terminal status is
`correct` OR the correctness flag is true; else `wrong`.  StaticChoice:
`skipped` if not answered; else `correct`/`wrong` per the correctness
flag.  This definition follows the spec's words and is compared with
`entryBucket`, which is translated from scoring.js. -/
def specCountingBucket (q : ResultEntry) : Bucket :=
  if entryType q = "live" then
    if liveStatusOf q = "timeout" then Bucket.timedOut
    else if (jsTrim q.attempt) = "" then Bucket.skipped
    else if liveStatusOf q = "correct" ∨ q.isCorrect then Bucket.correct
    else Bucket.wrong
  else
    if ¬ mcqWasAnswered q then Bucket.skipped
    else if q.isCorrect then Bucket.correct
    else Bucket.wrong

/-- The flag discipline every live entry of a finished record satisfies:
the stored correctness flag is set exactly when the attempt text is
non-empty and the terminal status is `correct`.  `handleSubmit` establishes
it (`mkLiveResultEntry`) and the repair pass preserves it. -/
def liveFlagConsistent (q : ResultEntry) : Prop :=
  entryType q = "live" →
    (q.isCorrect = true ↔ ((jsTrim q.attempt) ≠ "" ∧ liveStatusOf q = "correct"))

instance (q : ResultEntry) : Decidable (liveFlagConsistent q) := by
  unfold liveFlagConsistent
  infer_instance

/-! ### Concrete demonstration inputs (used by witnesses and counterexamples) -/

/-- A checker oracle that now accepts every attempt. -/
def demoCheck : String → String → Bool := fun _ _ => true

/-- A live entry stored as correct (non-empty attempt, terminal status
`correct`). -/
def demoCorrectLiveEntry : ResultEntry :=
  mkLiveResultEntry (some "correct") "x" "q3"

/-- A live entry stored as wrong (non-empty attempt, terminal status
`incorrect`). -/
def demoWrongLiveEntry : ResultEntry :=
  mkLiveResultEntry (some "incorrect") "x" "q3"

/-- A live entry that timed out with attempt text entered. -/
def demoTimeoutLiveEntry : ResultEntry :=
  mkLiveResultEntry (some "timeout") "x" "q3"

/-- An MCQ entry skipped with no option ever selected. -/
def demoSkippedMcqEntry : ResultEntry :=
  mkMcqResultEntry none [] ["a"]

/-- A record carrying per-question detail together with deliberately stale
stored aggregate fields. -/
def demoStaleRecord : ResultRecord :=
  ⟨some 1, [demoCorrectLiveEntry], some 999, some 0, some 0, some 0⟩

/-- A record as `handleSubmit` would store it for a three-question session:
one correct live answer, one wrong live answer, one skipped MCQ. -/
def demoSubmitRecord : ResultRecord :=
  ⟨some 3, [demoCorrectLiveEntry, demoWrongLiveEntry, demoSkippedMcqEntry],
    some 0, some 1, some 1, some 1⟩

/-- A live question with default allotment (20 s) and default retry limit. -/
def demoLiveQuestion : QuizQuestion := ⟨"L1", "live", none, none⟩

/-- An MCQ question (15 s default allotment). -/
def demoMcqQuestion : QuizQuestion := ⟨"M1", "mcq", none, none⟩

/-- A running session positioned on the live question with 300 s left on
the session clock. -/
def demoSession : SessionState :=
  ⟨[demoLiveQuestion, demoMcqQuestion], 0, some 300, 0, false, []⟩

/-! ### Counts algebra -/

/-- Pointwise sum of two counters. -/
def countsAdd (a b : Counts) : Counts :=
  ⟨a.correct + b.correct, a.wrong + b.wrong, a.skipped + b.skipped, a.timedOut + b.timedOut⟩

/-- The counters contributed by a single entry. -/
def bucketCounts (b : Bucket) : Counts :=
  addBucket ⟨0, 0, 0, 0⟩ b

lemma countsAdd_zero (c : Counts) : countsAdd c ⟨0, 0, 0, 0⟩ = c := by
  cases c
  simp [countsAdd]

lemma foldl_addBucket (rs : List ResultEntry) (c : Counts) :
    rs.foldl (fun acc q => addBucket acc (entryBucket q)) c =
      countsAdd c (deriveCountsFromResults rs) := by
  induction rs generalizing c with
  | nil => simp [deriveCountsFromResults, countsAdd_zero]
  | cons q rs ih =>
    rw [List.foldl_cons, ih]
    have hrhs : deriveCountsFromResults (q :: rs) =
        countsAdd (addBucket ⟨0, 0, 0, 0⟩ (entryBucket q)) (deriveCountsFromResults rs) := by
      rw [deriveCountsFromResults, List.foldl_cons, ih]
    rw [hrhs]
    cases entryBucket q <;> cases c <;>
      simp [addBucket, countsAdd, Counts.mk.injEq] <;> omega

lemma deriveCounts_cons (q : ResultEntry) (rs : List ResultEntry) :
    deriveCountsFromResults (q :: rs) =
      countsAdd (bucketCounts (entryBucket q)) (deriveCountsFromResults rs) := by
  rw [deriveCountsFromResults, List.foldl_cons, foldl_addBucket, bucketCounts]

lemma countsTotal_add (a b : Counts) :
    countsTotal (countsAdd a b) = countsTotal a + countsTotal b := by
  cases a; cases b
  simp [countsTotal, countsAdd]
  omega

lemma countsTotal_bucket (b : Bucket) : countsTotal (bucketCounts b) = 1 := by
  cases b <;> rfl

/-- Every entry falls into exactly one bucket, so the four counters sum to
the number of entries. -/
lemma countsTotal_deriveCounts (rs : List ResultEntry) :
    countsTotal (deriveCountsFromResults rs) = rs.length := by
  induction rs with
  | nil => rfl
  | cons q rs ih =>
    rw [deriveCounts_cons, countsTotal_add, countsTotal_bucket, ih, List.length_cons]
    omega

/-- The record builder establishes the live-entry flag discipline. -/
lemma mkLiveResultEntry_consistent (statusIn : Option String) (attempt apiId : String) :
    liveFlagConsistent (mkLiveResultEntry statusIn attempt apiId) := by
  intro _
  by_cases h : statusIn.getD "idle" = "correct"
  · have h2 : statusIn.getD "idle" ≠ "" := by
      rw [h]
      decide
    simp [mkLiveResultEntry, liveStatusOf, h, h2]
  · have h2 : (if statusIn.getD "idle" = "" then "idle" else statusIn.getD "idle") ≠
        "correct" := by
      by_cases he : statusIn.getD "idle" = "" <;> simp [he, h]
    simp [mkLiveResultEntry, liveStatusOf, h, h2]

/-- MCQ entries satisfy the live-entry flag discipline vacuously. -/
lemma mkMcqResultEntry_consistent (ov : Option Bool) (picked correctIds : List String) :
    liveFlagConsistent (mkMcqResultEntry ov picked correctIds) := by
  intro h
  simp [mkMcqResultEntry, entryType] at h

/-- C1: For every per-question entry of a finished record (characterised by the
flag discipline `liveFlagConsistent` that the record builder establishes
and the repair pass preserves), the read-time derivation assigns exactly
one bucket and that bucket follows the spec's counting rule: LiveCheck →
timedOut on terminal status timeout, else skipped on empty trimmed attempt,
else correct when the terminal status is correct OR the stored flag is
true, else wrong; StaticChoice → skipped when unanswered, else per the
flag. -/
theorem derive_bucket_follows_spec (q : ResultEntry) (h : liveFlagConsistent q) :
    entryBucket q = specCountingBucket q ∧
      countsTotal (deriveCountsFromResults [q]) = 1 := by
  constructor
  · by_cases hlive : entryType q = "live"
    · by_cases hto : liveStatusOf q = "timeout"
      · simp [entryBucket, specCountingBucket, hlive, hto]
      · by_cases hemp : (jsTrim q.attempt) = ""
        · simp [entryBucket, specCountingBucket, hasAttempt, hlive, hto, hemp]
        · have hiff := h hlive
          by_cases hic : q.isCorrect = true
          · have hcor : liveStatusOf q = "correct" := (hiff.mp hic).2
            simp [entryBucket, specCountingBucket, hasAttempt, hlive, hto, hemp, hic, hcor]
          · have hb : q.isCorrect = false := by
              cases hq : q.isCorrect
              · rfl
              · exact absurd hq hic
            have hnc : liveStatusOf q ≠ "correct" := fun hc => hic (hiff.mpr ⟨hemp, hc⟩)
            simp [entryBucket, specCountingBucket, hasAttempt, hlive, hto, hemp, hb, hnc]
    · simp [entryBucket, specCountingBucket, hlive]
  · exact countsTotal_deriveCounts [q]

/-- C1 witness: the theorem applied to a concrete live entry built by the
record builder, with the flag-discipline hypothesis discharged by the
builder lemma. -/
theorem derive_bucket_follows_spec_witness :
    entryBucket (mkLiveResultEntry (some "correct") "print 1" "q3") =
        specCountingBucket (mkLiveResultEntry (some "correct") "print 1" "q3") ∧
      countsTotal
          (deriveCountsFromResults [mkLiveResultEntry (some "correct") "print 1" "q3"]) = 1 :=
  derive_bucket_follows_spec (mkLiveResultEntry (some "correct") "print 1" "q3")
    (mkLiveResultEntry_consistent (some "correct") "print 1" "q3")

/-- C2 counterexample: a live question with non-empty attempt text and
terminal status `timeout` is classified `wrong` by the aggregate counting
of `handleSubmit` (which has no timed-out counter), refuting the claim that
every classification of such a question places it in the timedOut bucket
and never in wrong. -/
theorem submit_counts_timeout_as_wrong_counterexample :
    submitLiveBucket (some "timeout") "x" = Bucket.wrong ∧
      Bucket.wrong ≠ Bucket.timedOut := by
  decide

/-- C2 (amended): for every live question with non-empty attempt text and
terminal status `timeout`, the display-time derivation places its stored
entry in the timedOut bucket — never wrong, never skipped — while the
aggregate counts computed at submission time classify the same question as
wrong (there is no timed-out aggregate counter). -/
theorem timeout_display_bucket_vs_submit (statusIn : Option String)
    (attempt apiId : String) (ha : jsTrim attempt ≠ "")
    (hst : statusIn.getD "idle" = "timeout") :
    entryBucket (mkLiveResultEntry statusIn attempt apiId) = Bucket.timedOut ∧
      entryBucket (mkLiveResultEntry statusIn attempt apiId) ≠ Bucket.wrong ∧
      entryBucket (mkLiveResultEntry statusIn attempt apiId) ≠ Bucket.skipped ∧
      submitLiveBucket statusIn attempt = Bucket.wrong := by
  have hbucket : entryBucket (mkLiveResultEntry statusIn attempt apiId) = Bucket.timedOut := by
    simp [entryBucket, mkLiveResultEntry, entryType, liveStatusOf, hst]
  refine ⟨hbucket, ?_, ?_, ?_⟩
  · rw [hbucket]
    decide
  · rw [hbucket]
    decide
  · simp [submitLiveBucket, hst, ha]

/-- C2 witness: the amended theorem at a concrete timed-out entry. -/
theorem timeout_display_bucket_vs_submit_witness :
    entryBucket (mkLiveResultEntry (some "timeout") "x" "q3") = Bucket.timedOut ∧
      entryBucket (mkLiveResultEntry (some "timeout") "x" "q3") ≠ Bucket.wrong ∧
      entryBucket (mkLiveResultEntry (some "timeout") "x" "q3") ≠ Bucket.skipped ∧
      submitLiveBucket (some "timeout") "x" = Bucket.wrong :=
  timeout_display_bucket_vs_submit (some "timeout") "x" "q3" (by decide) rfl

/-- C3 counterexample: a record with per-question detail whose stored
`score` field is stale: `getPoints` (the display-points helper cited by the
claim) returns the stored 999 instead of the 1 point recomputed from the
per-question entries, refuting "the displayed points are... never taken
from the stored aggregate fields". -/
theorem points_prefer_stored_score_counterexample :
    getPoints demoStaleRecord quizConfigScoring = 999 ∧
      calcPointsFromBreakdown (getDisplayBreakdown demoStaleRecord) quizConfigScoring = 1 ∧
      (999 : Int) ≠ 1 := by
  decide

/-- C3 (amended): for every record whose per-question results array is
non-empty, the displayed breakdown counters are recomputed from the
per-question entries, and the stored aggregate counters are used only when
the record has no per-question detail; the displayed points of `getPoints`,
however, are taken from the stored `score` field whenever it is present
(points are recomputed from the derived breakdown only by the repair view's
`calcPointsFromBreakdown`). -/
theorem breakdown_recomputed_points_stored (r : ResultRecord) (cfg : ScoringPolicy) :
    (r.results ≠ [] →
      (getDisplayBreakdown r).correct = ((deriveCountsFromResults r.results).correct : Int) ∧
        (getDisplayBreakdown r).wrong = ((deriveCountsFromResults r.results).wrong : Int) ∧
        (getDisplayBreakdown r).skipped = ((deriveCountsFromResults r.results).skipped : Int) ∧
        (getDisplayBreakdown r).timedOut = ((deriveCountsFromResults r.results).timedOut : Int)) ∧
      (r.results = [] →
        (getDisplayBreakdown r).correct = r.correctCount.getD 0 ∧
          (getDisplayBreakdown r).wrong = r.wrongCount.getD 0 ∧
          (getDisplayBreakdown r).skipped = r.skippedCount.getD 0 ∧
          (getDisplayBreakdown r).timedOut = (countTimedOut r.results : Int)) ∧
      (∀ s : Int, r.score = some s → getPoints r cfg = s) := by
  refine ⟨?_, ?_, ?_⟩
  · intro hne
    have hemp : r.results.isEmpty = false := by
      simp [List.isEmpty_iff, hne]
    simp [getDisplayBreakdown, hemp]
  · intro he
    have hemp : r.results.isEmpty = true := by
      simp [List.isEmpty_iff, he]
    simp [getDisplayBreakdown, hemp]
  · intro s hs
    simp [getPoints, hs]

/-- C3 witness: the amended theorem at the stale demonstration record. -/
theorem breakdown_recomputed_points_stored_witness :
    (getDisplayBreakdown demoStaleRecord).correct =
        ((deriveCountsFromResults demoStaleRecord.results).correct : Int) ∧
      getPoints demoStaleRecord quizConfigScoring = 999 :=
  ⟨((breakdown_recomputed_points_stored demoStaleRecord quizConfigScoring).1
      (by decide)).1,
    (breakdown_recomputed_points_stored demoStaleRecord quizConfigScoring).2.2 999 rfl⟩

/-- C4: for every live attempt submission that reaches the external call
(non-terminal status, attempts remaining, non-empty attempt, an `apiId`)
and whose checker call fails (network failure, non-2xx, or unparsable
body), the attempts-used counter is unchanged and the question is marked
with the distinct `error` status; in particular, any number of consecutive
erroring submissions starting from the initial state leaves attempts-used
at 0. -/
theorem checker_error_preserves_attempts (limit : Nat) (apiId attempt : String)
    (st : LiveQState)
    (hc : statusOr st.status ≠ "correct") (ht : statusOr st.status ≠ "timeout")
    (hu : st.used < limit) (ha : jsTrim attempt ≠ "") (hid : apiId ≠ "") :
    (runLive limit apiId attempt st CheckOutcome.fail).used = st.used ∧
      (runLive limit apiId attempt st CheckOutcome.fail).status = "error" ∧
      ∀ n : Nat,
        ((fun s => runLive limit apiId attempt s CheckOutcome.fail)^[n]
            ⟨"idle", 0⟩).used = 0 := by
  have hlim : 0 < limit := Nat.lt_of_le_of_lt (Nat.zero_le _) hu
  have hstep : ∀ s : LiveQState,
      statusOr s.status ≠ "correct" → statusOr s.status ≠ "timeout" → s.used < limit →
        runLive limit apiId attempt s CheckOutcome.fail = { s with status := "error" } := by
    intro s h1 h2 h3
    have hor : ¬ (statusOr s.status = "correct" ∨ statusOr s.status = "timeout") := by
      rintro (h | h)
      · exact h1 h
      · exact h2 h
    have hle : ¬ limit ≤ s.used := Nat.not_le.mpr h3
    simp [runLive, hor, hle, ha, hid]
  have hmain := hstep st hc ht hu
  refine ⟨by rw [hmain], by rw [hmain], ?_⟩
  have key : ∀ n : Nat,
      ((fun s => runLive limit apiId attempt s CheckOutcome.fail)^[n] ⟨"idle", 0⟩).used = 0 ∧
        (((fun s => runLive limit apiId attempt s CheckOutcome.fail)^[n]
              ⟨"idle", 0⟩).status = "idle" ∨
          ((fun s => runLive limit apiId attempt s CheckOutcome.fail)^[n]
              ⟨"idle", 0⟩).status = "error") := by
    intro n
    induction n with
    | zero => exact ⟨rfl, Or.inl rfl⟩
    | succ n ih =>
      rw [Function.iterate_succ_apply']
      obtain ⟨ihu, ihs⟩ := ih
      have h1 : statusOr ((fun s => runLive limit apiId attempt s CheckOutcome.fail)^[n]
          ⟨"idle", 0⟩).status ≠ "correct" := by
        rcases ihs with h | h <;> simp [statusOr, h]
      have h2 : statusOr ((fun s => runLive limit apiId attempt s CheckOutcome.fail)^[n]
          ⟨"idle", 0⟩).status ≠ "timeout" := by
        rcases ihs with h | h <;> simp [statusOr, h]
      have h3 : ((fun s => runLive limit apiId attempt s CheckOutcome.fail)^[n]
          ⟨"idle", 0⟩).used < limit := by
        rw [ihu]
        exact hlim
      rw [hstep _ h1 h2 h3]
      exact ⟨ihu, Or.inr rfl⟩
  exact fun n => (key n).1

/-- C4 witness: five consecutive erroring submissions against the default
retry limit leave attempts-used at 0 and the status at `error`. -/
theorem checker_error_preserves_attempts_witness :
    (runLive 2 "q3" "x" ⟨"idle", 0⟩ CheckOutcome.fail).used = 0 ∧
      (runLive 2 "q3" "x" ⟨"idle", 0⟩ CheckOutcome.fail).status = "error" ∧
      ((fun s => runLive 2 "q3" "x" s CheckOutcome.fail)^[5] ⟨"idle", 0⟩).used = 0 :=
  ⟨(checker_error_preserves_attempts 2 "q3" "x" ⟨"idle", 0⟩ (by decide) (by decide)
        (by decide) (by decide) (by decide)).1,
    (checker_error_preserves_attempts 2 "q3" "x" ⟨"idle", 0⟩ (by decide) (by decide)
        (by decide) (by decide) (by decide)).2.1,
    (checker_error_preserves_attempts 2 "q3" "x" ⟨"idle", 0⟩ (by decide) (by decide)
        (by decide) (by decide) (by decide)).2.2 5⟩

/-- C5 counterexample: a submitted MCQ with one selected option whose
selected set exactly equals the correct set, but whose `answeredById`
override records it as skipped (select, then press Skip): the stored
correctness flag is false despite exact set equality, refuting the claimed
equivalence. -/
theorem mcq_flag_exact_match_counterexample :
    (mkMcqResultEntry (some false) ["a"] ["a"]).isCorrect = false ∧
      (["a"] : List String).toFinset = (["a"] : List String).toFinset ∧
      entryBucket (mkMcqResultEntry (some false) ["a"] ["a"]) = Bucket.skipped := by
  decide

/-- C5 (amended): for every submitted StaticChoice question whose resolved
`wasAnswered` flag is true (the default when at least one option is
selected, unless a later Skip recorded the override false), the stored
correctness flag is true exactly when the set of selected option ids equals
the set of correct option ids — any strict subset or superset is scored
wrong, with no partial credit. -/
theorem mcq_flag_iff_exact_set_match (ov : Option Bool) (picked correctIds : List String)
    (hans : mcqWasAnsweredAtSubmit ov picked = true)
    (hp : picked.Nodup) (hc : correctIds.Nodup) :
    ((mkMcqResultEntry ov picked correctIds).isCorrect = true ↔
      picked.toFinset = correctIds.toFinset) := by
  have hflag : (mkMcqResultEntry ov picked correctIds).isCorrect =
      exactMatch picked correctIds := by
    simp [mkMcqResultEntry, hans]
  rw [hflag]
  have hEM : exactMatch picked correctIds = true ↔
      picked.length = correctIds.length ∧ ∀ oid ∈ correctIds, oid ∈ picked := by
    simp [exactMatch]
  rw [hEM]
  constructor
  · rintro ⟨hlen, hsub⟩
    have hsubF : correctIds.toFinset ⊆ picked.toFinset := by
      intro x hx
      rw [List.mem_toFinset] at hx ⊢
      exact hsub x hx
    have hcard : picked.toFinset.card ≤ correctIds.toFinset.card := by
      rw [List.toFinset_card_of_nodup hp, List.toFinset_card_of_nodup hc]
      exact Nat.le_of_eq hlen
    exact (Finset.eq_of_subset_of_card_le hsubF hcard).symm
  · intro heq
    constructor
    · have := congrArg Finset.card heq
      rwa [List.toFinset_card_of_nodup hp, List.toFinset_card_of_nodup hc] at this
    · intro oid hoid
      have : oid ∈ correctIds.toFinset := List.mem_toFinset.mpr hoid
      rw [← heq] at this
      exact List.mem_toFinset.mp this

/-- C5 witness: the amended theorem at a concrete exact match (selection
order differing from the correct set's order). -/
theorem mcq_flag_iff_exact_set_match_witness :
    ((mkMcqResultEntry none ["a", "b"] ["b", "a"]).isCorrect = true ↔
      (["a", "b"] : List String).toFinset = (["b", "a"] : List String).toFinset) :=
  mcq_flag_iff_exact_set_match none ["a", "b"] ["b", "a"] (by decide) (by decide) (by decide)

/-- C6: for every skip of a non-final question in a session with the
session countdown enabled, the session clock is debited by exactly
`remainder = max(0, ceil(allotment - elapsed))` (the clock being floored at
zero, here stated for a clock holding at least the remainder); in
particular a 20-second allotment skipped after 5 elapsed seconds debits
exactly 15 seconds. -/
theorem skip_debits_unused_remainder (s : SessionState) (nowMs t : Int) (q : QuizQuestion)
    (hlen : s.currentIndex + 1 < s.questions.length)
    (hq : s.questions[s.currentIndex]? = some q)
    (hlive : s.isLiveOnly = false)
    (hgtl : s.globalTimeLeft = some t)
    (hrem : skipRemainder (getQuestionSeconds q) (nowMs - s.enteredAtMs) ≤ t) :
    (skipQuestion s nowMs).globalTimeLeft =
        some (t - skipRemainder (getQuestionSeconds q) (nowMs - s.enteredAtMs)) ∧
      (getQuestionSeconds q = 20 → nowMs - s.enteredAtMs = 5000 →
        skipRemainder (getQuestionSeconds q) (nowMs - s.enteredAtMs) = 15) := by
  constructor
  · have hnotlast : ¬ s.questions.length ≤ s.currentIndex + 1 := Nat.not_le.mpr hlen
    have hmax : max 0 (t - skipRemainder (getQuestionSeconds q) (nowMs - s.enteredAtMs)) =
        t - skipRemainder (getQuestionSeconds q) (nowMs - s.enteredAtMs) :=
      max_eq_right (by omega)
    simp [skipQuestion, hnotlast, hq, hlive, hgtl, hmax]
  · intro h20 h5
    rw [skipRemainder, h20, h5]
    norm_num

/-- C6 witness: the demonstration session (live question, 20 s allotment,
300 s on the clock) skipped 5000 ms after entry. -/
theorem skip_debits_unused_remainder_witness :
    (skipQuestion demoSession 5000).globalTimeLeft =
        some (300 - skipRemainder (getQuestionSeconds demoLiveQuestion)
            (5000 - demoSession.enteredAtMs)) ∧
      (getQuestionSeconds demoLiveQuestion = 20 → 5000 - demoSession.enteredAtMs = 5000 →
        skipRemainder (getQuestionSeconds demoLiveQuestion)
            (5000 - demoSession.enteredAtMs) = 15) :=
  skip_debits_unused_remainder demoSession 5000 300 demoLiveQuestion (by decide) rfl rfl rfl
    (by
      have h1 : getQuestionSeconds demoLiveQuestion = 20 := rfl
      have h2 : demoSession.enteredAtMs = 0 := rfl
      rw [h1, h2, skipRemainder]
      norm_num)

/-- C7 counterexample: a manual submission 135 s after start of a
two-question session with a 35 s total allotment stores
`finishedAt - startedAt = 135000 ms`, exceeding the allotment sum of
35000 ms — `finishedAt` is only clamped on the timeout path. -/
theorem finishedAt_exceeds_allotment_counterexample :
    submitFinishedAtMs "manual" 0 135000 [demoMcqQuestion, demoLiveQuestion] - 0 >
      totalTimeAllowedInSeconds [demoMcqQuestion, demoLiveQuestion] * 1000 := by
  decide

/-- C7 (amended): on a timeout submission `finishedAt` equals `startedAt`
plus the sum of all per-question allotments rather than wall-clock now, and
the stored `durationSeconds` is always clamped to that sum; for manual or
auto-advance submissions, however, `finishedAt` is wall-clock now and
`finishedAt - startedAt` may exceed the allotment sum. -/
theorem submit_time_clamping (reason : String) (startedAtMs nowMs : Int)
    (qs : List QuizQuestion) :
    submitFinishedAtMs "timeout" startedAtMs nowMs qs =
        startedAtMs + totalTimeAllowedInSeconds qs * 1000 ∧
      submitDurationSeconds reason startedAtMs nowMs qs ≤ totalTimeAllowedInSeconds qs ∧
      (reason ≠ "timeout" → submitFinishedAtMs reason startedAtMs nowMs qs = nowMs) := by
  refine ⟨by simp [submitFinishedAtMs], min_le_right _ _, ?_⟩
  intro h
  simp [submitFinishedAtMs, h]

/-- C7 witness: the amended theorem at the two-question demonstration
session (35 s total allotment), submitted manually 135 s after start. -/
theorem submit_time_clamping_witness :
    submitFinishedAtMs "timeout" 0 135000 [demoMcqQuestion, demoLiveQuestion] =
        0 + totalTimeAllowedInSeconds [demoMcqQuestion, demoLiveQuestion] * 1000 ∧
      submitDurationSeconds "manual" 0 135000 [demoMcqQuestion, demoLiveQuestion] ≤
        totalTimeAllowedInSeconds [demoMcqQuestion, demoLiveQuestion] ∧
      ("manual" ≠ "timeout" →
        submitFinishedAtMs "manual" 0 135000 [demoMcqQuestion, demoLiveQuestion] = 135000) :=
  submit_time_clamping "manual" 0 135000 [demoMcqQuestion, demoLiveQuestion]

/-- C8: for every stored result entry whose live status is `correct` or
`timeout`, or whose attempt text is empty after trimming, the history
re-grading pass dispatches no request to the external checker and leaves
the entry unchanged; a record whose entries are all settled is returned
verbatim with zero dispatches. -/
theorem settled_entries_not_rechecked (check : String → String → Bool)
    (q : ResultEntry) (rs : List ResultEntry)
    (hq : liveStatusOf q = "correct" ∨ liveStatusOf q = "timeout" ∨ jsTrim q.attempt = "")
    (hrs : ∀ p ∈ rs,
      liveStatusOf p = "correct" ∨ liveStatusOf p = "timeout" ∨ jsTrim p.attempt = "") :
    shouldRecheck q = false ∧ repairOne check q = q ∧
      repairResults check rs = rs ∧ repairDispatchCount rs = 0 := by
  have hsettled : ∀ p : ResultEntry,
      liveStatusOf p = "correct" ∨ liveStatusOf p = "timeout" ∨ jsTrim p.attempt = "" →
        shouldRecheck p = false := by
    intro p hp
    unfold shouldRecheck
    split_ifs with h1 h2 h3 h4
    · rfl
    · rfl
    · rfl
    · rfl
    · rcases hp with h | h | h
      · exact absurd (Or.inr h) h3
      · exact absurd (Or.inl h) h3
      · exact absurd h h4
  have hone : ∀ p : ResultEntry, shouldRecheck p = false → repairOne check p = p := by
    intro p hp
    simp [repairOne, hp]
  refine ⟨hsettled q hq, hone q (hsettled q hq), ?_, ?_⟩
  · unfold repairResults
    induction rs with
    | nil => rfl
    | cons p ps ih =>
      rw [List.map_cons, hone p (hsettled p (hrs p (List.mem_cons_self p ps)))]
      rw [ih (fun x hx => hrs x (List.mem_cons_of_mem p hx))]
  · unfold repairDispatchCount
    rw [List.countP_eq_zero]
    intro p hp
    simp [hsettled p (hrs p hp)]

/-- C8 witness: a settled (timed-out) entry is skipped by the repair pass
even against a checker that would now accept it. -/
theorem settled_entries_not_rechecked_witness :
    shouldRecheck demoTimeoutLiveEntry = false ∧
      repairOne demoCheck demoTimeoutLiveEntry = demoTimeoutLiveEntry ∧
      repairResults demoCheck [demoTimeoutLiveEntry] = [demoTimeoutLiveEntry] ∧
      repairDispatchCount [demoTimeoutLiveEntry] = 0 :=
  settled_entries_not_rechecked demoCheck demoTimeoutLiveEntry [demoTimeoutLiveEntry]
    (by decide) (by decide)

/-- C9: for every record carrying per-question detail consistent with its
stored total (as every record written by `handleSubmit` is), the displayed
breakdown satisfies `attempted + skipped = total` with
`attempted = correct + wrong + timedOut` (timed-out and wrong count as
attempted, only true skips are excluded); and `getAttemptedCount`, which is
clamped at zero, satisfies the same invariant against the stored skipped
count whenever that count is within range. -/
theorem attempted_plus_skipped_is_total (r : ResultRecord)
    (hres : r.results ≠ [])
    (htot : recordTotal r = (r.results.length : Int)) :
    (getDisplayBreakdown r).attempted + (getDisplayBreakdown r).skipped =
        (getDisplayBreakdown r).total ∧
      (getDisplayBreakdown r).attempted =
        (getDisplayBreakdown r).correct + (getDisplayBreakdown r).wrong +
          (getDisplayBreakdown r).timedOut ∧
      ∀ sk : Int, r.skippedCount = some sk → 0 ≤ sk → sk ≤ recordTotal r →
        getAttemptedCount r + sk = recordTotal r := by
  have hemp : r.results.isEmpty = false := by
    simp [List.isEmpty_iff, hres]
  have hsum := countsTotal_deriveCounts r.results
  unfold countsTotal at hsum
  have hskip_nat : (deriveCountsFromResults r.results).skipped ≤ r.results.length := by
    omega
  have hskip_le : ((deriveCountsFromResults r.results).skipped : Int) ≤ recordTotal r := by
    rw [htot]
    exact_mod_cast hskip_nat
  refine ⟨?_, ?_, ?_⟩
  · simp only [getDisplayBreakdown, hemp]
    simp only [Bool.false_eq_true, if_false]
    rw [max_eq_right (by omega)]
    omega
  · simp only [getDisplayBreakdown, hemp]
    simp only [Bool.false_eq_true, if_false]
    rw [max_eq_right (by omega), htot]
    omega
  · intro sk hsk h0 hle
    simp only [getAttemptedCount, hsk]
    rw [max_eq_right (by omega)]
    omega

/-- C9 witness: the invariant at the three-question demonstration record
(one correct, one wrong, one skipped). -/
theorem attempted_plus_skipped_is_total_witness :
    (getDisplayBreakdown demoSubmitRecord).attempted +
          (getDisplayBreakdown demoSubmitRecord).skipped =
        (getDisplayBreakdown demoSubmitRecord).total ∧
      getAttemptedCount demoSubmitRecord + 1 = recordTotal demoSubmitRecord :=
  ⟨(attempted_plus_skipped_is_total demoSubmitRecord (by decide) (by decide)).1,
    (attempted_plus_skipped_is_total demoSubmitRecord (by decide) (by decide)).2.2 1 rfl
      (by decide) (by decide)⟩

/-- Unpacking a positive `shouldRecheck` into the facts its branch
structure guarantees. -/
lemma shouldRecheck_true_elim (q : ResultEntry) (h : shouldRecheck q = true) :
    q.type = "live" ∧ q.apiId ≠ "" ∧ liveStatusOf q ≠ "timeout" ∧
      liveStatusOf q ≠ "correct" ∧ jsTrim q.attempt ≠ "" ∧ q.isCorrect = false := by
  unfold shouldRecheck at h
  split_ifs at h with h1 h2 h3 h4
  all_goals simp at h
  exact ⟨not_ne_iff.mp h1, h2, fun hc => h3 (Or.inl hc), fun hc => h3 (Or.inr hc), h4, h⟩

/-- A re-dispatched entry accepted by the checker moves from the wrong
bucket to the correct bucket. -/
lemma repairOne_upgrade_buckets (check : String → String → Bool) (q : ResultEntry)
    (hr : shouldRecheck q = true) (hcheck : check q.apiId (jsTrim q.attempt) = true) :
    repairOne check q = { q with isCorrect := true, liveStatusStatus := "correct" } ∧
      entryBucket q = Bucket.wrong ∧
      entryBucket (repairOne check q) = Bucket.correct := by
  obtain ⟨htype, hapi, hto, hcor, hat, hic⟩ := shouldRecheck_true_elim q hr
  have hup : repairOne check q = { q with isCorrect := true, liveStatusStatus := "correct" } := by
    simp [repairOne, hr, hcheck]
  have hlv : entryType q = "live" := by
    simp [entryType, htype]
  have hattempt : hasAttempt q = true := by
    simp [hasAttempt, hat]
  refine ⟨hup, ?_, ?_⟩
  · simp [entryBucket, hlv, hto, hattempt, hic]
  · rw [hup]
    have hlv2 : entryType { q with isCorrect := true, liveStatusStatus := "correct" } =
        "live" := by
      simp [entryType, htype]
    have hst2 : liveStatusOf { q with isCorrect := true, liveStatusStatus := "correct" } =
        "correct" := by
      simp [liveStatusOf]
    have hat2 : hasAttempt { q with isCorrect := true, liveStatusStatus := "correct" } =
        true := by
      simp [hasAttempt, hat]
    simp [entryBucket, hlv2, hst2, hat2]

/-- Per-entry bucket comparison across one repair step. -/
lemma repairOne_bucket (check : String → String → Bool) (q : ResultEntry) :
    entryBucket (repairOne check q) = entryBucket q ∨
      (entryBucket q = Bucket.wrong ∧ entryBucket (repairOne check q) = Bucket.correct) := by
  by_cases hr : shouldRecheck q = true
  · by_cases hcheck : check q.apiId (jsTrim q.attempt) = true
    · exact Or.inr (repairOne_upgrade_buckets check q hr hcheck).2
    · left
      simp [repairOne, hcheck]
  · left
    simp [repairOne, hr]

lemma countsAdd_correct (a b : Counts) : (countsAdd a b).correct = a.correct + b.correct := rfl

lemma countsAdd_wrong (a b : Counts) : (countsAdd a b).wrong = a.wrong + b.wrong := rfl

/-- Across one repair pass the derived correct count never decreases and
the derived wrong count never increases. -/
lemma repair_counts_mono (check : String → String → Bool) (rs : List ResultEntry) :
    (deriveCountsFromResults rs).correct ≤
        (deriveCountsFromResults (repairResults check rs)).correct ∧
      (deriveCountsFromResults (repairResults check rs)).wrong ≤
        (deriveCountsFromResults rs).wrong := by
  induction rs with
  | nil => exact ⟨Nat.le_refl _, Nat.le_refl _⟩
  | cons p ps ih =>
    have hmap : repairResults check (p :: ps) =
        repairOne check p :: repairResults check ps := rfl
    rw [hmap, deriveCounts_cons, deriveCounts_cons, countsAdd_correct, countsAdd_correct,
      countsAdd_wrong, countsAdd_wrong]
    rcases repairOne_bucket check p with h | ⟨h1, h2⟩
    · rw [h]
      exact ⟨Nat.add_le_add_left ih.1 _, Nat.add_le_add_left ih.2 _⟩
    · rw [h1, h2]
      have h3 := ih.1
      have h4 := ih.2
      constructor
      · have e1 : (bucketCounts Bucket.wrong).correct = 0 := rfl
        have e2 : (bucketCounts Bucket.correct).correct = 1 := rfl
        rw [e1, e2]
        omega
      · have e1 : (bucketCounts Bucket.wrong).wrong = 1 := rfl
        have e2 : (bucketCounts Bucket.correct).wrong = 0 := rfl
        rw [e1, e2]
        omega

/-- C10: the repair pass is monotone — every entry is either left unchanged
or upgraded (flag true, live status `correct`) exactly when the checker now
answers Success; an entry already marked correct (by flag or status) is
never re-dispatched and never downgraded; and across one pass over a
record's entries the derived correct count never decreases while the
derived wrong count never increases. -/
theorem repair_pass_monotone (check : String → String → Bool) (q : ResultEntry)
    (rs : List ResultEntry) :
    (repairOne check q = q ∨
        (shouldRecheck q = true ∧ check q.apiId (jsTrim q.attempt) = true ∧
          repairOne check q = { q with isCorrect := true, liveStatusStatus := "correct" } ∧
          entryBucket q = Bucket.wrong ∧
          entryBucket (repairOne check q) = Bucket.correct)) ∧
      ((q.isCorrect = true ∨ liveStatusOf q = "correct") →
        shouldRecheck q = false ∧ repairOne check q = q) ∧
      ((deriveCountsFromResults rs).correct ≤
          (deriveCountsFromResults (repairResults check rs)).correct ∧
        (deriveCountsFromResults (repairResults check rs)).wrong ≤
          (deriveCountsFromResults rs).wrong) := by
  refine ⟨?_, ?_, repair_counts_mono check rs⟩
  · by_cases hr : shouldRecheck q = true
    · by_cases hcheck : check q.apiId (jsTrim q.attempt) = true
      · obtain ⟨hup, hw, hc⟩ := repairOne_upgrade_buckets check q hr hcheck
        exact Or.inr ⟨hr, hcheck, hup, hw, hc⟩
      · left
        simp [repairOne, hcheck]
    · left
      simp [repairOne, hr]
  · intro hq
    have hfalse : shouldRecheck q = false := by
      unfold shouldRecheck
      split_ifs with h1 h2 h3 h4
      · rfl
      · rfl
      · rfl
      · rfl
      · rcases hq with h | h
        · simp [h]
        · exact absurd (Or.inr h) h3
    exact ⟨hfalse, by simp [repairOne, hfalse]⟩

/-- C10 witness: a correct entry is untouched and a one-entry record of a
wrong answer can only improve under a checker that now accepts it. -/
theorem repair_pass_monotone_witness :
    (shouldRecheck demoCorrectLiveEntry = false ∧
        repairOne demoCheck demoCorrectLiveEntry = demoCorrectLiveEntry) ∧
      (deriveCountsFromResults [demoWrongLiveEntry]).correct ≤
        (deriveCountsFromResults (repairResults demoCheck [demoWrongLiveEntry])).correct :=
  ⟨(repair_pass_monotone demoCheck demoCorrectLiveEntry []).2.1 (Or.inl (by decide)),
    (repair_pass_monotone demoCheck demoWrongLiveEntry [demoWrongLiveEntry]).2.2.1⟩

end AlphaHub
